import Mathlib

set_option autoImplicit false
set_option linter.unusedVariables false

/- Shallow embedding of src/main.py (Bulk AI Index Checker & Auditor).

   Conventions of the embedding:
   * Python strings are Lean `String`s; `str.strip()` is `pyStrip` (ASCII
     whitespace), `str.rstrip(\x27/\x27)` is `rstripSlash`, and the Python
     substring test `a in b` is `pyIn`.
   * The Serper search backend is modelled as a function from the batch
     index to a `BatchResponse`: a parsed JSON result array on HTTP 200,
     a non-200 status code, or a raised transport/parse exception.
   * The Python dict `indexed_map` is modelled as an insertion-ordered
     association list (`Dict`) with dict-assignment semantics (`dinsert`
     updates an existing key in place, otherwise appends).
   * `time.sleep(1)` calls are counted in the second component of the
     state threaded through `runBatches`.
   * For `get_ai_diagnosis`, the page fetch is modelled by a
     `FetchOutcome` (an HTTP response carrying the parsed HTML node
     forest, a timeout, a connection error, or another exception), and
     the Gemini client by a function from the prompt to the response
     text. All Python `except` arms return strings, so the embedded
     function is total. -/

def pyStrip (s : String) : String :=
  ⟨((s.data.dropWhile Char.isWhitespace).reverse.dropWhile Char.isWhitespace).reverse⟩

def rstripSlash (s : String) : String :=
  ⟨(s.data.reverse.dropWhile (fun c => c == '/')).reverse⟩

/-- `startsWithL n h` is true when `n` is an initial segment of `h`. -/
def startsWithL : List Char → List Char → Bool
  | [], _ => true
  | _ :: _, [] => false
  | c :: cs, d :: ds => c == d && startsWithL cs ds

/-- `substrB n h` is true when `n` occurs contiguously inside `h`
    (Python `n in h` on strings). -/
def substrB (needle : List Char) : List Char → Bool
  | [] => startsWithL needle []
  | d :: ds => startsWithL needle (d :: ds) || substrB needle ds

def pyIn (a b : String) : Bool := substrB a.data b.data

/-- One entry of a Serper `organic` list; `link` is `none` when the JSON
    object has no `link` key (the code reads `item.get(\x27link\x27, \x27\x27)`). -/
structure OrganicItem where
  link : Option String
deriving DecidableEq

/-- One element of the Serper response array; `organic` is `none` when the
    object has no `organic` key (the code reads `res.get(\x27organic\x27, [])`). -/
structure SerpResult where
  organic : Option (List OrganicItem)
deriving DecidableEq

/-- Outcome of one `requests.post` to the Serper endpoint. -/
inductive BatchResponse where
  | success (results : List SerpResult)
  | httpError
  | exn
deriving DecidableEq

/-- The per-item test from line 64 of src/main.py:
    `url.strip().rstrip(\x27/\x27) in item.get(\x27link\x27, \x27\x27).rstrip(\x27/\x27)`. -/
def linkMatches (url : String) (item : OrganicItem) : Bool :=
  pyIn (rstripSlash (pyStrip url)) (rstripSlash (item.link.getD ""))

/-- `is_found` for one URL against its result-set (lines 64-65 of src/main.py). -/
def isFound (url : String) (res : SerpResult) : Bool :=
  (res.organic.getD []).any (linkMatches url)

/-- The index-match predicate as the spec words it: the result link is ALSO
    trimmed before trailing-slash normalization. Declared only to be compared
    against `linkMatches`, which embeds the code. -/
def specLinkMatches (url : String) (item : OrganicItem) : Bool :=
  pyIn (rstripSlash (pyStrip url)) (rstripSlash (pyStrip (item.link.getD "")))

/-- `isFound` as the spec words it, built on `specLinkMatches`. -/
def specIsFound (url : String) (res : SerpResult) : Bool :=
  (res.organic.getD []).any (specLinkMatches url)

/-- Insertion-ordered model of the Python dict `indexed_map`. -/
abbrev Dict := List (String × Bool)

/-- Python dict assignment `m[k] = v`: replace in place if present, else append. -/
def dinsert (m : Dict) (k : String) (v : Bool) : Dict :=
  if m.any (fun p => p.1 == k) then m.map (fun p => if p.1 = k then (p.1, v) else p)
  else m ++ [(k, v)]

/-- Python dict lookup, `none` when the key is absent. -/
def dlookup : Dict → String → Option Bool
  | [], _ => none
  | p :: m, k => if p.1 = k then some p.2 else dlookup m k

def keys (m : Dict) : List String := m.map Prod.fst

/-- Run a sequence of dict assignments in order. -/
def foldPairs (m : Dict) (ps : List (String × Bool)) : Dict :=
  ps.foldl (fun m p => dinsert m p.1 p.2) m

/-- The two failure arms of the loop body: every URL of the batch is
    assigned `False` (lines 49-50 and 72-73 of src/main.py). -/
def markAllFalse (b : List String) (m : Dict) : Dict :=
  foldPairs m (b.map (fun u => (u, false)))

/-- The success arm of the loop body (lines 56-67 of src/main.py):
    `for j, res in enumerate(results)` with a break at `j >= len(batch_urls)`
    assigns `indexed_map[batch_urls[j]] = is_found` for `j` below the length
    of both lists, in order. -/
def applyResults (b : List String) (rs : List SerpResult) (m : Dict) : Dict :=
  foldPairs m ((rs.zip b).map (fun p => (p.2, isFound p.2 p.1)))

/-- `urls[i : i + 20]` slices produced by `range(0, len(urls), 20)`
    (BATCH_SIZE = 20, lines 32 and 36-37 of src/main.py). -/
def chunk20 (l : List String) : List (List String) :=
  if h : l = [] then [] else l.take 20 :: chunk20 (l.drop 20)
termination_by l.length
decreasing_by
  simp only [List.length_drop]
  have h0 : 0 < l.length := List.length_pos.mpr h
  omega

/-- The query built for one URL (line 40 of src/main.py). -/
def quoteQuery (u : String) : String := "\"" ++ pyStrip u ++ "\""

/-- The JSON payload of one batched call, one query per URL of the batch. -/
def batchPayload (b : List String) : List String := b.map quoteQuery

/-- The payloads of the backend calls issued by `check_index_bulk`,
    one per batch, in order. -/
def requestPayloads (urls : List String) : List (List String) :=
  (chunk20 urls).map batchPayload

/-- Dict update performed for one batch, by response kind. -/
def batchStep (r : BatchResponse) (b : List String) (m : Dict) : Dict :=
  match r with
  | .success rs => applyResults b rs m
  | .httpError => markAllFalse b m
  | .exn => markAllFalse b m

/-- Number of `time.sleep(1)` calls executed for one batch: the `continue`
    on the non-200 path (line 51) skips the sleep at line 76; the success
    path and the `except` path fall through to it. -/
def stepSleep (r : BatchResponse) : Nat :=
  match r with
  | .success _ => 1
  | .httpError => 0
  | .exn => 1

/-- The batch loop of `check_index_bulk`: state is the dict together with
    the number of sleeps performed; `k` is the index of the next batch. -/
def runBatches (backend : Nat → BatchResponse) :
    Nat → List (List String) → Dict × Nat → Dict × Nat
  | _, [], st => st
  | k, b :: bs, st =>
    runBatches backend (k + 1) bs
      (batchStep (backend k) b st.1, st.2 + stepSleep (backend k))

/-- The verdict mapping returned by `check_index_bulk` (lines 27-78). -/
def check_index_bulk (urls : List String) (backend : Nat → BatchResponse) : Dict :=
  (runBatches backend 0 (chunk20 urls) ([], 0)).1

/-- Total number of sleeps performed by `check_index_bulk`. -/
def sleepCount (urls : List String) (backend : Nat → BatchResponse) : Nat :=
  (runBatches backend 0 (chunk20 urls) ([], 0)).2

def isHttpErrorB : BatchResponse → Bool
  | .httpError => true
  | _ => false

/-- Parsed HTML, the level at which BeautifulSoup operates: a node is a
    text fragment or an element with a tag and children. A document is a
    forest (`List Node`). -/
inductive Node where
  | text (s : String)
  | elem (tag : String) (children : List Node)

/-- BeautifulSoup `.string`: a text node is its own string; a tag with a
    single child defers to it; a tag with zero or several children has none. -/
def nodeString : Node → Option String
  | .text s => some s
  | .elem _ [c] => nodeString c
  | .elem _ _ => none

/-- BeautifulSoup `soup.title`: the first `title` element in document order. -/
def findTitleL : List Node → Option Node
  | [] => none
  | .text _ :: rest => findTitleL rest
  | .elem tag cs :: rest =>
    if tag == "title" then some (.elem tag cs)
    else
      match findTitleL cs with
      | some t => some t
      | none => findTitleL rest

/-- Line 113 of src/main.py:
    `soup.title.string.strip() if soup.title and soup.title.string else url`
    (Python truthiness makes both a missing string and the empty string
    fall back to the URL). -/
def pyTitle (roots : List Node) (url : String) : String :=
  match findTitleL roots with
  | none => url
  | some t =>
    match nodeString t with
    | none => url
    | some s => if s == "" then url else pyStrip s

/-- Lines 116-117 of src/main.py: `soup(["script", "style"])` followed by
    `.extract()` removes every script/style element (with its subtree). -/
def removeScriptStyle : List Node → List Node
  | [] => []
  | .text s :: rest => .text s :: removeScriptStyle rest
  | .elem tag cs :: rest =>
    if tag == "script" || tag == "style" then removeScriptStyle rest
    else .elem tag (removeScriptStyle cs) :: removeScriptStyle rest

/-- All text fragments of a forest, in document order. -/
def getTexts : List Node → List String
  | [] => []
  | .text s :: rest => s :: getTexts rest
  | .elem _ cs :: rest => getTexts cs ++ getTexts rest

/-- BeautifulSoup `get_text(separator=\x27 \x27, strip=True)`: each text
    fragment stripped, empty ones dropped, the rest joined by one space. -/
def getTextSep (roots : List Node) : String :=
  String.intercalate " " (((getTexts roots).map pyStrip).filter (fun s => ! (s == "")))

/-- Python slice `s[:n]`. -/
def strTake (n : Nat) (s : String) : String := ⟨s.data.take n⟩

/-- Line 119 of src/main.py: `soup.get_text(separator=\x27 \x27, strip=True)[:1500]`
    computed after the script/style removal. -/
def pageSnippet (roots : List Node) : String :=
  strTake 1500 (getTextSep (removeScriptStyle roots))

/-- `true` when no script or style element occurs anywhere in the forest. -/
def noScriptStyle : List Node → Bool
  | [] => true
  | .text _ :: rest => noScriptStyle rest
  | .elem tag cs :: rest =>
    ! (tag == "script" || tag == "style") && noScriptStyle cs && noScriptStyle rest

/-- Outcome of the `requests.get(url, ...)` at line 103 of src/main.py. -/
inductive FetchOutcome where
  | resp (statusCode : Nat) (body : List Node)
  | timeout
  | connRefused
  | otherExn (msg : String)

/-- The prompt assembled at lines 124-131 of src/main.py. -/
def buildPrompt (url content : String) : String :=
  "Analyze this web page for SEO indexing issues.\n" ++
  "URL: " ++ url ++ "\n" ++
  "Content Extracted:\n" ++ content ++ "\n\n" ++
  "Task: The page is NOT indexed by Google. Based on the content above, " ++
  "give 1 likely technical or content reason (e.g., \x27Thin content\x27, \x27Under construction\x27, \x27Login wall\x27, \x27Technical error\x27)." ++
  "Keep it under 15 words."

/-- `get_ai_diagnosis` (lines 92-141 of src/main.py). The fetch outcome and
    the Gemini client are parameters; every `except` arm returns a string,
    so the function is total. -/
def get_ai_diagnosis (url : String) (outcome : FetchOutcome) (llm : String → String) : String :=
  match outcome with
  | .resp code body =>
    if code ≠ 200 then "Site blocked the crawler (Status Code: " ++ toString code ++ ")."
    else
      let title := pyTitle body url
      let page_text := pageSnippet body
      let content := "Title: " ++ title ++ "\nPage Text Snippet: " ++ page_text
      pyStrip (llm (buildPrompt url content))
  | .timeout => "Error: Connection timed out (Site is slow)."
  | .connRefused => "Error: Connection refused (Bot protection)."
  | .otherExn msg => "Error: " ++ msg

theorem foldPairs_nil (m : Dict) : foldPairs m [] = m := rfl

theorem foldPairs_cons (m : Dict) (p : String × Bool) (ps : List (String × Bool)) :
    foldPairs m (p :: ps) = foldPairs (dinsert m p.1 p.2) ps := rfl

theorem any_beq_iff_mem_keys (m : Dict) (k : String) :
    (m.any (fun p => p.1 == k)) = true ↔ k ∈ keys m := by
  rw [List.any_eq_true, keys]
  constructor
  · rintro ⟨p, hp, he⟩
    exact (by simpa using he : p.1 = k) ▸ List.mem_map_of_mem Prod.fst hp
  · intro hk
    rcases List.mem_map.mp hk with ⟨p, hp, he⟩
    exact ⟨p, hp, by simpa using he⟩

theorem dlookup_append (m1 m2 : Dict) (k : String) :
    dlookup (m1 ++ m2) k =
      match dlookup m1 k with
      | some v => some v
      | none => dlookup m2 k := by
  induction m1 with
  | nil => simp [dlookup]
  | cons p m ih =>
    by_cases h : p.1 = k <;> simp [dlookup, h, ih]

theorem dlookup_eq_none_of_notmem (m : Dict) (k : String) (h : k ∉ keys m) :
    dlookup m k = none := by
  induction m with
  | nil => rfl
  | cons p m ih =>
    rw [keys, List.map_cons] at h
    simp only [List.mem_cons, not_or] at h
    have h1 : ¬ p.1 = k := fun he => h.1 he.symm
    simp [dlookup, h1, ih h.2]

theorem keys_map_replace (m : Dict) (k : String) (v : Bool) :
    keys (m.map (fun p => if p.1 = k then (p.1, v) else p)) = keys m := by
  induction m with
  | nil => rfl
  | cons p m ih =>
    have hfst : (if p.1 = k then (p.1, v) else p).1 = p.1 := by
      by_cases h : p.1 = k <;> simp [h]
    have ih' : List.map Prod.fst (m.map (fun p => if p.1 = k then (p.1, v) else p))
        = List.map Prod.fst m := ih
    rw [keys, keys, List.map_cons, List.map_cons, hfst, ih']
    rfl

theorem dlookup_map_replace_self (m : Dict) (k : String) (v : Bool) (h : k ∈ keys m) :
    dlookup (m.map (fun p => if p.1 = k then (p.1, v) else p)) k = some v := by
  induction m with
  | nil => simp [keys] at h
  | cons p m ih =>
    by_cases hp : p.1 = k
    · simp [dlookup, hp]
    · have h' : k ∈ keys m := by
        rw [keys, List.map_cons] at h
        rcases List.mem_cons.mp h with h1 | h1
        · exact absurd h1.symm hp
        · exact h1
      simp [dlookup, hp, ih h']

theorem dlookup_map_replace_ne (m : Dict) (k : String) (v : Bool) (k' : String) (h : k' ≠ k) :
    dlookup (m.map (fun p => if p.1 = k then (p.1, v) else p)) k' = dlookup m k' := by
  induction m with
  | nil => rfl
  | cons p m ih =>
    by_cases hp : p.1 = k
    · have h2 : ¬ p.1 = k' := by rw [hp]; exact fun he => h he.symm
      have h3 : ¬ k = k' := fun he => h he.symm
      simp [dlookup, hp, h2, h3, ih]
    · by_cases hp' : p.1 = k' <;> simp [dlookup, hp, hp', ih, h]

theorem dlookup_dinsert_self (m : Dict) (k : String) (v : Bool) :
    dlookup (dinsert m k v) k = some v := by
  rw [dinsert]
  split
  · next h => exact dlookup_map_replace_self m k v ((any_beq_iff_mem_keys m k).mp h)
  · next h =>
    have hnm : k ∉ keys m := fun hc => h ((any_beq_iff_mem_keys m k).mpr hc)
    rw [dlookup_append, dlookup_eq_none_of_notmem m k hnm]
    simp [dlookup]

theorem dlookup_dinsert_ne (m : Dict) (k : String) (v : Bool) (k' : String) (h : k' ≠ k) :
    dlookup (dinsert m k v) k' = dlookup m k' := by
  rw [dinsert]
  split
  · exact dlookup_map_replace_ne m k v k' h
  · rw [dlookup_append]
    have h3 : ¬ k = k' := fun he => h he.symm
    have hsingle : dlookup [(k, v)] k' = none := by simp [dlookup, h3]
    cases hm : dlookup m k' <;> simp [hm, hsingle]

theorem mem_keys_dinsert (m : Dict) (k : String) (v : Bool) (u : String) :
    u ∈ keys (dinsert m k v) ↔ u = k ∨ u ∈ keys m := by
  rw [dinsert]
  split
  · next h =>
    rw [keys_map_replace]
    have hk : k ∈ keys m := (any_beq_iff_mem_keys m k).mp h
    constructor
    · exact Or.inr
    · rintro (rfl | hu)
      · exact hk
      · exact hu
  · have hk2 : keys (m ++ [(k, v)]) = keys m ++ [k] := by
      rw [keys, keys, List.map_append]; rfl
    rw [hk2, List.mem_append]
    simp only [List.mem_singleton]
    tauto

theorem nodup_keys_dinsert (m : Dict) (k : String) (v : Bool)
    (h : (keys m).Nodup) : (keys (dinsert m k v)).Nodup := by
  rw [dinsert]
  split
  · next _ => rw [keys_map_replace]; exact h
  · next hany =>
    have hnm : k ∉ keys m := fun hc => hany ((any_beq_iff_mem_keys m k).mpr hc)
    have hk2 : keys (m ++ [(k, v)]) = keys m ++ [k] := by
      rw [keys, keys, List.map_append]; rfl
    rw [hk2, List.nodup_append]
    exact ⟨h, by simp, by intro x hx hx2; simp at hx2; exact hnm (hx2 ▸ hx)⟩

theorem dlookup_foldPairs_notmem (ps : List (String × Bool)) (m : Dict) (u : String)
    (h : u ∉ ps.map Prod.fst) : dlookup (foldPairs m ps) u = dlookup m u := by
  induction ps generalizing m with
  | nil => rfl
  | cons p ps ih =>
    rw [List.map_cons] at h
    simp only [List.mem_cons, not_or] at h
    rw [foldPairs_cons, ih _ h.2, dlookup_dinsert_ne _ _ _ _ h.1]

theorem dlookup_foldPairs_congr (ps : List (String × Bool)) (m m' : Dict) (u : String)
    (h : dlookup m u = dlookup m' u) :
    dlookup (foldPairs m ps) u = dlookup (foldPairs m' ps) u := by
  induction ps generalizing m m' with
  | nil => exact h
  | cons p ps ih =>
    rw [foldPairs_cons, foldPairs_cons]
    apply ih
    by_cases hp : u = p.1
    · subst hp; rw [dlookup_dinsert_self, dlookup_dinsert_self]
    · rw [dlookup_dinsert_ne _ _ _ _ hp, dlookup_dinsert_ne _ _ _ _ hp, h]

theorem dlookup_foldPairs_false (ps : List (String × Bool)) (m : Dict) (u : String)
    (hall : ∀ p ∈ ps, p.2 = false) (hu : u ∈ ps.map Prod.fst) :
    dlookup (foldPairs m ps) u = some false := by
  induction ps generalizing m with
  | nil => simp at hu
  | cons p ps ih =>
    rw [foldPairs_cons]
    by_cases h : u ∈ ps.map Prod.fst
    · exact ih _ (fun q hq => hall q (List.mem_cons_of_mem _ hq)) h
    · have hup : u = p.1 := by
        rw [List.map_cons] at hu
        rcases List.mem_cons.mp hu with h1 | h1
        · exact h1
        · exact absurd h1 h
      rw [dlookup_foldPairs_notmem ps _ u h, hup, dlookup_dinsert_self]
      have := hall p (List.mem_cons_self p ps)
      rw [this]

theorem mem_keys_foldPairs (ps : List (String × Bool)) (m : Dict) (u : String) :
    u ∈ keys (foldPairs m ps) ↔ u ∈ keys m ∨ u ∈ ps.map Prod.fst := by
  induction ps generalizing m with
  | nil => simp [foldPairs_nil]
  | cons p ps ih =>
    rw [foldPairs_cons, ih, mem_keys_dinsert, List.map_cons, List.mem_cons]
    tauto

theorem nodup_keys_foldPairs (ps : List (String × Bool)) (m : Dict)
    (h : (keys m).Nodup) : (keys (foldPairs m ps)).Nodup := by
  induction ps generalizing m with
  | nil => exact h
  | cons p ps ih => exact ih _ (nodup_keys_dinsert _ _ _ h)

theorem map_snd_zip_eq_take {α β : Type} (rs : List α) (b : List β) :
    (rs.zip b).map Prod.snd = b.take rs.length := by
  induction rs generalizing b with
  | nil => simp
  | cons r rs ih =>
    cases b with
    | nil => simp
    | cons x xs => simp [List.zip_cons_cons, ih]

theorem chunk20_nil : chunk20 [] = [] := by simp [chunk20]

theorem chunk20_cons (l : List String) (h : l ≠ []) :
    chunk20 l = l.take 20 :: chunk20 (l.drop 20) := by
  rw [chunk20]
  simp [h]

theorem chunk20_flatten (l : List String) : (chunk20 l).flatten = l := by
  by_cases h : l = []
  · subst h; simp [chunk20_nil]
  · rw [chunk20_cons l h]
    have ih := chunk20_flatten (l.drop 20)
    simp only [List.flatten_cons, ih]
    exact List.take_append_drop 20 l
termination_by l.length
decreasing_by
  simp only [List.length_drop]
  have h0 : 0 < l.length := List.length_pos.mpr h
  omega

theorem chunk20_length (l : List String) : (chunk20 l).length = (l.length + 19) / 20 := by
  by_cases h : l = []
  · subst h; rw [chunk20_nil]; rfl
  · rw [chunk20_cons l h, List.length_cons, chunk20_length (l.drop 20), List.length_drop]
    have h0 : 0 < l.length := List.length_pos.mpr h
    omega
termination_by l.length
decreasing_by
  simp only [List.length_drop]
  have h0 : 0 < l.length := List.length_pos.mpr h
  omega

theorem mem_chunk20 (l : List String) (b : List String) (hb : b ∈ chunk20 l) :
    b.length ≤ 20 ∧ b ≠ [] := by
  by_cases h : l = []
  · subst h; rw [chunk20_nil] at hb; simp at hb
  · rw [chunk20_cons l h] at hb
    rcases List.mem_cons.mp hb with rfl | hb'
    · refine ⟨List.length_take_le 20 l, ?_⟩
      intro hnil
      have h0 : 0 < l.length := List.length_pos.mpr h
      have h20 : (l.take 20).length = 0 := by rw [hnil]; rfl
      rw [List.length_take] at h20
      omega
    · exact mem_chunk20 (l.drop 20) b hb'
termination_by l.length
decreasing_by
  simp only [List.length_drop]
  have h0 : 0 < l.length := List.length_pos.mpr h
  omega

example : nodeString (.elem "title" [.text "Hi"]) = some "Hi" := by
  simp [nodeString]
example : findTitleL [Node.elem "html" [Node.elem "title" [Node.text "Hi"]]]
    = some (.elem "title" [.text "Hi"]) := by simp [findTitleL]
example : pyTitle [Node.elem "title" []] "u" = "u" := by
  simp [pyTitle, findTitleL, nodeString]
example : pyTitle [Node.elem "title" [Node.text ""]] "u" = "u" := by
  simp [pyTitle, findTitleL, nodeString]
example : pyTitle [Node.elem "title" [Node.text " Hi "]] "u" = "Hi" := by
  simp [pyTitle, findTitleL, nodeString]; decide
example : removeScriptStyle
    [Node.elem "body" [Node.elem "script" [Node.text "js"], Node.text "ok"]]
    = [Node.elem "body" [Node.text "ok"]] := by simp [removeScriptStyle]
example : getTextSep [Node.elem "p" [Node.text " a "], Node.text "", Node.text "b"]
    = "a b" := by simp [getTextSep, getTexts]; decide
example : get_ai_diagnosis "u" .timeout (fun _ => "X")
    = "Error: Connection timed out (Site is slow)." := by decide
example : get_ai_diagnosis "u" (.resp 404 []) (fun _ => "X")
    = "Site blocked the crawler (Status Code: 404)." := by decide
example : get_ai_diagnosis "u" (.resp 200 []) (fun _ => " Y ") = "Y" := by
  simp [get_ai_diagnosis, pyTitle, findTitleL, pageSnippet, removeScriptStyle,
    getTextSep, getTexts, strTake, pyStrip]

example : pyIn "a.com/page" "https://a.com/page2" = true := by decide
example : pyIn "b.com" "https://a.com" = false := by decide
example : rstripSlash "x//" = "x" := by decide
example : pyStrip "  x y " = "x y" := by decide
example : chunk20 ["a", "b"] = [["a", "b"]] := by simp [chunk20]
example : dinsert [("a", true)] "a" false = [("a", false)] := by decide
example : dinsert [("a", true)] "b" false = [("a", true), ("b", false)] := by decide

theorem runBatches_nil (backend : Nat → BatchResponse) (k : Nat) (st : Dict × Nat) :
    runBatches backend k [] st = st := rfl

theorem runBatches_cons (backend : Nat → BatchResponse) (k : Nat) (b : List String)
    (bs : List (List String)) (st : Dict × Nat) :
    runBatches backend k (b :: bs) st
      = runBatches backend (k + 1) bs
          (batchStep (backend k) b st.1, st.2 + stepSleep (backend k)) := rfl

theorem runBatches_append (backend : Nat → BatchResponse) (bs1 bs2 : List (List String))
    (k : Nat) (st : Dict × Nat) :
    runBatches backend k (bs1 ++ bs2) st
      = runBatches backend (k + bs1.length) bs2 (runBatches backend k bs1 st) := by
  induction bs1 generalizing k st with
  | nil => simp [runBatches_nil]
  | cons b bs ih =>
    rw [List.cons_append, runBatches_cons, runBatches_cons, ih, List.length_cons]
    have harith : k + 1 + bs.length = k + (bs.length + 1) := by omega
    rw [harith]

theorem keys_batchStep_pairs (r : BatchResponse) (b : List String) (m : Dict) :
    ∃ ps : List (String × Bool), batchStep r b m = foldPairs m ps
      ∧ ps.map Prod.fst = (match r with
          | .success rs => b.take rs.length
          | _ => b) := by
  cases r with
  | success rs =>
    refine ⟨(rs.zip b).map (fun p => (p.2, isFound p.2 p.1)), ?_, ?_⟩
    · rfl
    · rw [List.map_map]
      exact map_snd_zip_eq_take rs b
  | httpError =>
    refine ⟨b.map (fun u => (u, false)), rfl, ?_⟩
    rw [List.map_map]
    exact List.map_id b
  | exn =>
    refine ⟨b.map (fun u => (u, false)), rfl, ?_⟩
    rw [List.map_map]
    exact List.map_id b

theorem dlookup_batchStep_notmem (r : BatchResponse) (b : List String) (m : Dict)
    (u : String) (h : u ∉ b) : dlookup (batchStep r b m) u = dlookup m u := by
  obtain ⟨ps, hps, hkeys⟩ := keys_batchStep_pairs r b m
  rw [hps]
  apply dlookup_foldPairs_notmem
  rw [hkeys]
  cases r with
  | success rs => exact fun hc => h (List.take_subset _ _ hc)
  | httpError => exact h
  | exn => exact h

theorem dlookup_batchStep_congr (r : BatchResponse) (b : List String) (m m' : Dict)
    (u : String) (h : dlookup m u = dlookup m' u) :
    dlookup (batchStep r b m) u = dlookup (batchStep r b m') u := by
  cases r with
  | success rs => exact dlookup_foldPairs_congr _ _ _ _ h
  | httpError => exact dlookup_foldPairs_congr _ _ _ _ h
  | exn => exact dlookup_foldPairs_congr _ _ _ _ h

theorem dlookup_markAllFalse_mem (b : List String) (m : Dict) (u : String) (h : u ∈ b) :
    dlookup (markAllFalse b m) u = some false := by
  apply dlookup_foldPairs_false
  · intro p hp
    rcases List.mem_map.mp hp with ⟨x, _, rfl⟩
    rfl
  · rw [List.map_map]
    rw [show (Prod.fst ∘ fun u => ((u, false) : String × Bool)) = id from rfl, List.map_id]
    exact h

theorem mem_keys_batchStep (r : BatchResponse) (b : List String) (m : Dict) (u : String) :
    u ∈ keys (batchStep r b m) ↔ u ∈ keys m ∨ u ∈ (match r with
      | .success rs => b.take rs.length
      | _ => b) := by
  obtain ⟨ps, hps, hkeys⟩ := keys_batchStep_pairs r b m
  rw [hps, mem_keys_foldPairs, hkeys]

theorem nodup_keys_batchStep (r : BatchResponse) (b : List String) (m : Dict)
    (h : (keys m).Nodup) : (keys (batchStep r b m)).Nodup := by
  obtain ⟨ps, hps, _⟩ := keys_batchStep_pairs r b m
  rw [hps]
  exact nodup_keys_foldPairs _ _ h

theorem nodup_keys_runBatches (backend : Nat → BatchResponse) (bs : List (List String))
    (k : Nat) (st : Dict × Nat) (h : (keys st.1).Nodup) :
    (keys (runBatches backend k bs st).1).Nodup := by
  induction bs generalizing k st with
  | nil => exact h
  | cons b bs ih =>
    rw [runBatches_cons]
    exact ih _ _ (nodup_keys_batchStep _ _ _ h)

theorem dlookup_runBatches_notmem (backend : Nat → BatchResponse) (bs : List (List String))
    (k : Nat) (st : Dict × Nat) (u : String) (h : ∀ b ∈ bs, u ∉ b) :
    dlookup (runBatches backend k bs st).1 u = dlookup st.1 u := by
  induction bs generalizing k st with
  | nil => rfl
  | cons b bs ih =>
    rw [runBatches_cons, ih _ _ (fun b2 hb2 => h b2 (List.mem_cons_of_mem _ hb2))]
    exact dlookup_batchStep_notmem _ _ _ _ (h b (List.mem_cons_self b bs))

theorem mem_keys_runBatches (backend : Nat → BatchResponse) (bs : List (List String))
    (k : Nat) (st : Dict × Nat) (u : String)
    (H : ∀ j (hj : j < bs.length) (rs : List SerpResult),
      backend (k + j) = .success rs → (bs[j]).length ≤ rs.length) :
    u ∈ keys (runBatches backend k bs st).1 ↔ u ∈ keys st.1 ∨ u ∈ bs.flatten := by
  induction bs generalizing k st with
  | nil => simp [runBatches_nil]
  | cons b bs ih =>
    rw [runBatches_cons]
    have Htail : ∀ j (hj : j < bs.length) (rs : List SerpResult),
        backend (k + 1 + j) = .success rs → (bs[j]).length ≤ rs.length := by
      intro j hj rs hb
      have harith : k + (j + 1) = k + 1 + j := by omega
      have := H (j + 1) (by simpa using Nat.succ_lt_succ hj) rs (by rw [harith]; exact hb)
      simpa using this
    rw [ih _ _ Htail, mem_keys_batchStep]
    have hb0 : u ∈ (match backend k with
        | BatchResponse.success rs => b.take rs.length
        | _ => b) ↔ u ∈ b := by
      cases hr : backend k with
      | success rs =>
        have hlen : b.length ≤ rs.length := by
          have := H 0 (by simp) rs (by rw [Nat.add_zero]; exact hr)
          simpa using this
        simp [List.take_of_length_le hlen]
      | httpError => exact Iff.rfl
      | exn => exact Iff.rfl
    rw [hb0, List.flatten_cons, List.mem_append]
    tauto

theorem dlookup_runBatches_agree (backend backend2 : Nat → BatchResponse) (u : String)
    (bs : List (List String)) (k : Nat) (st st2 : Dict × Nat)
    (h : dlookup st.1 u = dlookup st2.1 u)
    (hcond : ∀ j (hj : j < bs.length), backend2 (k + j) = backend (k + j) ∨ u ∉ bs[j]) :
    dlookup (runBatches backend k bs st).1 u = dlookup (runBatches backend2 k bs st2).1 u := by
  induction bs generalizing k st st2 with
  | nil => exact h
  | cons b bs ih =>
    rw [runBatches_cons, runBatches_cons]
    apply ih
    · rcases hcond 0 (by simp) with hbe | hnb
      · rw [Nat.add_zero] at hbe
        rw [hbe]
        exact dlookup_batchStep_congr _ _ _ _ _ h
      · simp only [List.getElem_cons_zero] at hnb
        rw [dlookup_batchStep_notmem _ _ _ _ hnb, dlookup_batchStep_notmem _ _ _ _ hnb]
        exact h
    · intro j hj
      have harith : k + (j + 1) = k + 1 + j := by omega
      have := hcond (j + 1) (by simpa using Nat.succ_lt_succ hj)
      rw [harith] at this
      simpa using this

theorem snd_runBatches (backend : Nat → BatchResponse) (bs : List (List String))
    (k : Nat) (st : Dict × Nat) :
    (runBatches backend k bs st).2
      = st.2 + (List.range bs.length).countP (fun j => ! isHttpErrorB (backend (k + j))) := by
  induction bs generalizing k st with
  | nil => simp [runBatches_nil]
  | cons b bs ih =>
    rw [runBatches_cons, ih]
    rw [List.length_cons, List.range_succ_eq_map, List.countP_cons, List.countP_map]
    have hfun : ((fun j => ! isHttpErrorB (backend (k + j))) ∘ Nat.succ)
        = fun j => ! isHttpErrorB (backend (k + 1 + j)) := by
      funext j
      have harith : k + (j + 1) = k + 1 + j := by omega
      simp [Function.comp, Nat.succ_eq_add_one, harith]
    rw [hfun]
    simp only [Nat.add_zero]
    have hstep : stepSleep (backend k) = if (! isHttpErrorB (backend k)) = true then 1 else 0 := by
      cases backend k <;> rfl
    rw [hstep]
    omega

theorem startsWithL_iff (n : List Char) : ∀ h : List Char,
    startsWithL n h = true ↔ ∃ t, n ++ t = h := by
  induction n with
  | nil => intro h; simp [startsWithL]
  | cons c cs ih =>
    intro h
    cases h with
    | nil => simp [startsWithL]
    | cons d ds =>
      rw [startsWithL, Bool.and_eq_true, beq_iff_eq, ih ds]
      constructor
      · rintro ⟨rfl, t, rfl⟩
        exact ⟨t, rfl⟩
      · rintro ⟨t, ht⟩
        rw [List.cons_append] at ht
        have h1 := List.cons.inj ht
        exact ⟨h1.1, t, h1.2⟩

theorem substrB_iff (n : List Char) : ∀ h : List Char,
    substrB n h = true ↔ ∃ s t, s ++ n ++ t = h := by
  intro h
  induction h with
  | nil =>
    rw [substrB, startsWithL_iff]
    constructor
    · rintro ⟨t, ht⟩
      exact ⟨[], t, by simpa using ht⟩
    · rintro ⟨s, t, hst⟩
      rcases List.append_eq_nil.mp hst with ⟨h1, h2⟩
      rcases List.append_eq_nil.mp h1 with ⟨rfl, rfl⟩
      exact ⟨[], by simp⟩
  | cons d ds ih =>
    rw [substrB, Bool.or_eq_true, startsWithL_iff, ih]
    constructor
    · rintro (⟨t, ht⟩ | ⟨s, t, hst⟩)
      · exact ⟨[], t, by simpa using ht⟩
      · exact ⟨d :: s, t, by rw [← hst]; rfl⟩
    · rintro ⟨s, t, hst⟩
      cases s with
      | nil => exact Or.inl ⟨t, by simpa using hst⟩
      | cons x xs =>
        rw [List.cons_append, List.cons_append] at hst
        have h1 := List.cons.inj hst
        exact Or.inr ⟨xs, t, h1.2⟩

theorem noScriptStyle_removeScriptStyle (roots : List Node) :
    noScriptStyle (removeScriptStyle roots) = true := by
  induction roots using removeScriptStyle.induct with
  | case1 => simp [removeScriptStyle, noScriptStyle]
  | case2 s rest ih =>
    rw [show removeScriptStyle (.text s :: rest) = .text s :: removeScriptStyle rest
      from by simp [removeScriptStyle]]
    rw [noScriptStyle]
    exact ih
  | case3 tag cs rest hcond ihrest =>
    rw [show removeScriptStyle (.elem tag cs :: rest) = removeScriptStyle rest
      from by simp [removeScriptStyle, hcond]]
    exact ihrest
  | case4 tag cs rest hcond ihcs ihrest =>
    rw [show removeScriptStyle (.elem tag cs :: rest)
        = .elem tag (removeScriptStyle cs) :: removeScriptStyle rest
      from by simp [removeScriptStyle, hcond]]
    rw [noScriptStyle]
    simp only [Bool.and_eq_true]
    refine ⟨⟨?_, ihcs⟩, ihrest⟩
    simpa using hcond

/-- Claim C10 (confirmed): applied to an empty URL list, check_index_bulk
    returns an empty mapping, issues no backend requests (the payload list
    of issued calls is empty) and performs no pauses. -/
theorem C10_empty_input (backend : Nat → BatchResponse) :
    check_index_bulk [] backend = []
    ∧ requestPayloads [] = []
    ∧ sleepCount [] backend = 0 := by
  refine ⟨?_, ?_, ?_⟩ <;>
    simp [check_index_bulk, requestPayloads, sleepCount, chunk20_nil, runBatches_nil]

/-- Claim C5 (confirmed): for N input URLs check_index_bulk issues exactly
    ceil(N/20) backend calls (one per batch); the batches are consecutive
    slices of at most 20 URLs preserving input order (their concatenation
    restores the input, and each is non-empty), and each call carries
    exactly one quoted-phrase query per URL of its batch. -/
theorem C5_batch_partitioning (urls : List String) :
    (requestPayloads urls).length = (urls.length + 19) / 20
    ∧ (chunk20 urls).flatten = urls
    ∧ (∀ b, b ∈ chunk20 urls → b.length ≤ 20 ∧ b ≠ [])
    ∧ (∀ b, b ∈ chunk20 urls → (batchPayload b).length = b.length)
    ∧ (∀ b, b ∈ chunk20 urls → ∀ i (h1 : i < b.length) (h2 : i < (batchPayload b).length),
        (batchPayload b)[i] = "\"" ++ pyStrip (b[i]) ++ "\"") := by
  refine ⟨?_, chunk20_flatten urls, mem_chunk20 urls, ?_, ?_⟩
  · rw [requestPayloads, List.length_map, chunk20_length]
  · intro b hb
    rw [batchPayload, List.length_map]
  · intro b hb i h1 h2
    simp only [batchPayload, List.getElem_map, quoteQuery]

/-- Witness for C5 at a concrete two-URL input: one backend call carrying
    two queries. -/
theorem C5_batch_partitioning_witness :
    (requestPayloads ["a", "b"]).length = 1
    ∧ (batchPayload ["a", "b"]).length = 2 := by
  have h := C5_batch_partitioning ["a", "b"]
  constructor
  · rw [h.1]
    decide
  · have hb : (["a", "b"] : List String) ∈ chunk20 ["a", "b"] := by
      rw [show chunk20 ["a", "b"] = [["a", "b"]] from by simp [chunk20]]
      simp
    have := h.2.2.2.1 ["a", "b"] hb
    simpa using this

/-- Claim C1 as stated fails on the code: a successful (HTTP 200) response
    carrying fewer result-sets than the batch has URLs leaves the excess
    URLs without any entry. With input ["a"] and a 200 response whose JSON
    array is empty, the returned mapping has no entry for "a". -/
theorem C1_counterexample :
    dlookup (check_index_bulk ["a"] (fun _ => BatchResponse.success [])) "a" = none
    ∧ ("a" : String) ∈ (["a"] : List String) := by
  constructor
  · rw [check_index_bulk, show chunk20 ["a"] = [["a"]] from by simp [chunk20]]
    rfl
  · simp

/-- Claim C1 (amended): for every non-empty input URL list, if every
    successful batch response carries at least as many result-sets as its
    batch has URLs, the returned mapping has exactly one entry per distinct
    input URL: its key list is duplicate-free and a string is a key exactly
    when it is an input URL. Failed batches still contribute all their URLs
    (mapped to false); the proviso excludes only short 200-responses, the
    policy gap the spec itself records. -/
theorem C1_verdict_key_coverage (urls : List String) (backend : Nat → BatchResponse)
    (hne : urls ≠ [])
    (H : ∀ k (hk : k < (chunk20 urls).length) (rs : List SerpResult),
      backend k = .success rs → ((chunk20 urls)[k]).length ≤ rs.length) :
    (keys (check_index_bulk urls backend)).Nodup
    ∧ ∀ u, u ∈ keys (check_index_bulk urls backend) ↔ u ∈ urls := by
  constructor
  · apply nodup_keys_runBatches
    simp [keys]
  · intro u
    rw [check_index_bulk]
    rw [mem_keys_runBatches backend (chunk20 urls) 0 ([], 0) u
      (by intro j hj rs hb; rw [Nat.zero_add] at hb; exact H j hj rs hb)]
    rw [chunk20_flatten]
    simp [keys]

/-- Witness for the amended C1: two URLs, one successful batch carrying two
    result-sets; "a" is a key and the key list is duplicate-free. -/
theorem C1_verdict_key_coverage_witness :
    ("a" : String) ∈ keys (check_index_bulk ["a", "b"]
        (fun _ => BatchResponse.success [⟨some []⟩, ⟨some []⟩]))
    ∧ (keys (check_index_bulk ["a", "b"]
        (fun _ => BatchResponse.success [⟨some []⟩, ⟨some []⟩]))).Nodup := by
  have hch : chunk20 ["a", "b"] = [["a", "b"]] := by simp [chunk20]
  have h := C1_verdict_key_coverage ["a", "b"]
    (fun _ => BatchResponse.success [⟨some []⟩, ⟨some []⟩])
    (by simp)
    (by
      intro k hk rs hb
      injection hb with h2
      rw [hch] at hk
      have hk0 : k = 0 := Nat.lt_one_iff.mp (by simpa using hk)
      subst hk0
      rw [← h2]
      simp [hch])
  exact ⟨(h.2 "a").mpr (by simp), h.1⟩

/-- Claim C2 (confirmed): if batch k fails with a non-success status or an
    exception, then (i) immediately after that batch every one of its URLs
    maps to false, (ii) the run continues with the remaining batches from
    exactly that state (and the embedding is total, so nothing is raised),
    (iii) the final verdict of any URL outside batch k is independent of
    what the backend did at batch k, and (iv) a URL of batch k that occurs
    in no later batch maps to false in the returned mapping. -/
theorem C2_failed_batch_isolation (urls : List String) (backend : Nat → BatchResponse)
    (k : Nat) (hk : k < (chunk20 urls).length)
    (hfail : backend k = .httpError ∨ backend k = .exn) :
    (∀ u ∈ (chunk20 urls)[k],
      dlookup (runBatches backend 0 ((chunk20 urls).take (k + 1)) ([], 0)).1 u = some false)
    ∧ runBatches backend 0 (chunk20 urls) ([], 0)
        = runBatches backend (k + 1) ((chunk20 urls).drop (k + 1))
            (runBatches backend 0 ((chunk20 urls).take (k + 1)) ([], 0))
    ∧ (∀ backend2 : Nat → BatchResponse, (∀ j, j ≠ k → backend2 j = backend j) →
        ∀ u, u ∉ (chunk20 urls)[k] →
        dlookup (check_index_bulk urls backend) u = dlookup (check_index_bulk urls backend2) u)
    ∧ (∀ u ∈ (chunk20 urls)[k], (∀ b ∈ (chunk20 urls).drop (k + 1), u ∉ b) →
        dlookup (check_index_bulk urls backend) u = some false) := by
  have htake : (chunk20 urls).take (k + 1)
      = (chunk20 urls).take k ++ [(chunk20 urls)[k]] := by
    rw [List.take_succ, List.getElem?_eq_getElem hk]
    rfl
  have hlen_take_k : ((chunk20 urls).take k).length = k := by
    rw [List.length_take]
    omega
  have hmid : ∀ u ∈ (chunk20 urls)[k],
      dlookup (runBatches backend 0 ((chunk20 urls).take (k + 1)) ([], 0)).1 u
        = some false := by
    intro u hu
    rw [htake, runBatches_append, hlen_take_k, Nat.zero_add, runBatches_cons, runBatches_nil]
    rcases hfail with hf | hf <;> rw [hf] <;> exact dlookup_markAllFalse_mem _ _ _ hu
  have hsplit : runBatches backend 0 (chunk20 urls) ([], 0)
      = runBatches backend (k + 1) ((chunk20 urls).drop (k + 1))
          (runBatches backend 0 ((chunk20 urls).take (k + 1)) ([], 0)) := by
    conv =>
      lhs
      rw [show chunk20 urls = (chunk20 urls).take (k + 1) ++ (chunk20 urls).drop (k + 1)
        from (List.take_append_drop _ _).symm]
    rw [runBatches_append, Nat.zero_add, List.length_take,
      show min (k + 1) (chunk20 urls).length = k + 1 from by omega]
  refine ⟨hmid, hsplit, ?_, ?_⟩
  · intro backend2 hag u hu
    rw [check_index_bulk, check_index_bulk]
    apply dlookup_runBatches_agree
    · rfl
    · intro j hj
      by_cases hjk : j = k
      · subst hjk
        exact Or.inr hu
      · refine Or.inl ?_
        rw [Nat.zero_add]
        exact hag j hjk
  · intro u hu hlater
    rw [check_index_bulk, hsplit, dlookup_runBatches_notmem _ _ _ _ _ hlater]
    exact hmid u hu

/-- Witness for C2: a single batch failing with a non-success status ends
    with all its URLs mapped to false. -/
theorem C2_failed_batch_isolation_witness :
    dlookup (check_index_bulk ["a", "b"] (fun _ => BatchResponse.httpError)) "a"
      = some false := by
  have hch : chunk20 ["a", "b"] = [["a", "b"]] := by simp [chunk20]
  have h := C2_failed_batch_isolation ["a", "b"] (fun _ => BatchResponse.httpError) 0
    (by rw [hch]; simp) (Or.inl rfl)
  exact h.2.2.2 "a" (by simp [hch]) (by simp [hch])

/-- Claim C7 as stated fails: the pause is not performed after a batch that
    failed with a non-success status code, because the continue statement
    at line 51 jumps past time.sleep(1) at line 76. With one batch that
    fails this way, zero pauses happen although one batch ran. -/
theorem C7_counterexample :
    sleepCount ["a"] (fun _ => BatchResponse.httpError) = 0
    ∧ (chunk20 ["a"]).length = 1 := by
  have hch : chunk20 ["a"] = [["a"]] := by simp [chunk20]
  constructor
  · rw [sleepCount, hch]
    rfl
  · rw [hch]
    rfl

/-- Claim C7 (amended): check_index_bulk pauses 1 time unit after every
    batch whose backend call did not return a non-success status code —
    after each successful batch and after each batch that failed with an
    exception, including the final one — while a batch that failed with a
    non-success status code skips its pause (its continue bypasses the
    sleep). The pause count equals the number of such batches. -/
theorem C7_sleep_accounting (urls : List String) (backend : Nat → BatchResponse) :
    sleepCount urls backend
      = (List.range (chunk20 urls).length).countP (fun j => ! isHttpErrorB (backend j)) := by
  rw [sleepCount, snd_runBatches]
  simp

/-- Claim C3 as stated fails: the code does not trim the result link — it
    applies rstrip only (line 64). For the URL "b /", whose trimmed and
    trailing-slash-stripped form is "b " (it keeps an inner space before
    the stripped slash), and an organic link "b ", the code marks the URL
    indexed, while the spec-worded predicate — which trims the link before
    trailing-slash stripping — does not match. -/
theorem C3_counterexample :
    isFound "b /" ⟨some [⟨some "b "⟩]⟩ = true
    ∧ specIsFound "b /" ⟨some [⟨some "b "⟩]⟩ = false := by
  exact ⟨by decide, by decide⟩

/-- Claim C3 (amended): in a successful batch response a URL is marked
    indexed iff some organic result's link, after trailing-slash stripping
    only (the link is NOT trimmed), contains the trimmed,
    trailing-slash-stripped URL as a contiguous substring — substring, not
    exact, matching, so a prefix URL matches a longer link such as the same
    path with a suffix (second conjunct: "example.com/page" matches the
    link "https://example.com/page2"). -/
theorem C3_substring_match :
    (∀ url res, isFound url res = true ↔
      ∃ item ∈ res.organic.getD [],
        ∃ s t, s ++ (rstripSlash (pyStrip url)).data ++ t
          = (rstripSlash (item.link.getD "")).data)
    ∧ isFound "example.com/page" ⟨some [⟨some "https://example.com/page2"⟩]⟩ = true := by
  constructor
  · intro url res
    rw [isFound, List.any_eq_true]
    constructor
    · rintro ⟨item, hmem, hmatch⟩
      exact ⟨item, hmem, (substrB_iff _ _).mp hmatch⟩
    · rintro ⟨item, hmem, hsub⟩
      exact ⟨item, hmem, (substrB_iff _ _).mpr hsub⟩
  · decide

/-- Claim C4 (confirmed): get_ai_diagnosis returns a string on every input
    (the embedding is total because every except arm returns a string):
    a non-2xx fetch returns the string naming its status code, and a
    timeout, a connection-refused error and any other exception return the
    distinct diagnostic strings below, the last surfacing the exception
    message verbatim. -/
theorem C4_diagnosis_failure_taxonomy (url msg : String) (llm : String → String)
    (code : Nat) (body : List Node) (h : code < 200 ∨ 300 ≤ code) :
    get_ai_diagnosis url (.resp code body) llm
      = "Site blocked the crawler (Status Code: " ++ toString code ++ ")."
    ∧ get_ai_diagnosis url .timeout llm = "Error: Connection timed out (Site is slow)."
    ∧ get_ai_diagnosis url .connRefused llm = "Error: Connection refused (Bot protection)."
    ∧ get_ai_diagnosis url (.otherExn msg) llm = "Error: " ++ msg
    ∧ get_ai_diagnosis url .timeout llm ≠ get_ai_diagnosis url .connRefused llm := by
  have hne : code ≠ 200 := by omega
  refine ⟨?_, rfl, rfl, rfl, ?_⟩
  · simp [get_ai_diagnosis, hne]
  · show ("Error: Connection timed out (Site is slow)." : String)
      ≠ "Error: Connection refused (Bot protection)."
    decide

/-- Witness for C4 at concrete inputs (HTTP 404 and a raised exception). -/
theorem C4_diagnosis_failure_taxonomy_witness :
    get_ai_diagnosis "u" (.resp 404 []) (fun _ => "X")
      = "Site blocked the crawler (Status Code: " ++ toString 404 ++ ")."
    ∧ get_ai_diagnosis "u" (.otherExn "boom") (fun _ => "X") = "Error: " ++ "boom" := by
  have h := C4_diagnosis_failure_taxonomy "u" "boom" (fun _ => "X") 404 [] (by omega)
  exact ⟨h.1, h.2.2.2.1⟩

/-- Claim C6 as stated fails: the code tests status != 200, not non-2xx;
    a 204 response is a 2xx status, yet it takes the blocked-crawler
    branch and the model response (here "X") is never returned. -/
theorem C6_counterexample :
    (200 ≤ 204 ∧ 204 < 300)
    ∧ get_ai_diagnosis "u" (.resp 204 []) (fun _ => "X")
        = "Site blocked the crawler (Status Code: 204)."
    ∧ get_ai_diagnosis "u" (.resp 204 []) (fun _ => "X") ≠ "X" := by
  refine ⟨by decide, by decide, by decide⟩

/-- Claim C6 (amended): for every fetch that returns status exactly 200
    (rather than any 2xx), get_ai_diagnosis parses the body, removes
    script/style elements before text extraction (the cleaned forest
    contains no script or style element), and returns the model's trimmed
    text response on the assembled prompt. -/
theorem C6_success_path :
    (∀ (url : String) (llm : String → String) (body : List Node),
      get_ai_diagnosis url (.resp 200 body) llm
        = pyStrip (llm (buildPrompt url
            ("Title: " ++ pyTitle body url ++ "\nPage Text Snippet: " ++ pageSnippet body))))
    ∧ (∀ roots, noScriptStyle (removeScriptStyle roots) = true) := by
  exact ⟨fun url llm body => rfl, noScriptStyle_removeScriptStyle⟩

/-- Claim C8 (confirmed): the title placed in the prompt is the URL itself
    when the page has no title element, when the title has no string
    value, or when the title string is empty (Python falsiness of "");
    otherwise it is the stripped title text. -/
theorem C8_title_fallback (roots : List Node) (url s : String) (t : Node) :
    (findTitleL roots = none → pyTitle roots url = url)
    ∧ (findTitleL roots = some t → nodeString t = none → pyTitle roots url = url)
    ∧ (findTitleL roots = some t → nodeString t = some "" → pyTitle roots url = url)
    ∧ (findTitleL roots = some t → nodeString t = some s → s ≠ "" →
        pyTitle roots url = pyStrip s) := by
  refine ⟨?_, ?_, ?_, ?_⟩
  · intro h1
    simp [pyTitle, h1]
  · intro h1 h2
    simp [pyTitle, h1, h2]
  · intro h1 h2
    simp [pyTitle, h1, h2]
  · intro h1 h2 h3
    simp [pyTitle, h1, h2, h3]

/-- Witness for C8: a whitespace-padded title is stripped; a page with no
    title element falls back to the URL. -/
theorem C8_title_fallback_witness :
    pyTitle [Node.elem "title" [Node.text " Hi "]] "u" = pyStrip " Hi "
    ∧ pyTitle [Node.text "x"] "u" = "u" := by
  constructor
  · exact (C8_title_fallback [Node.elem "title" [Node.text " Hi "]] "u" " Hi "
      (Node.elem "title" [Node.text " Hi "])).2.2.2
      (by simp [findTitleL]) (by simp [nodeString]) (by decide)
  · exact (C8_title_fallback [Node.text "x"] "u" "" (Node.text "")).1
      (by simp [findTitleL])

/-- Claim C9 (confirmed): the page-text snippet that get_ai_diagnosis
    embeds in the model prompt is never longer than 1500 characters,
    whatever the fetched page contains. -/
theorem C9_snippet_length_bound (body : List Node) : (pageSnippet body).length ≤ 1500 := by
  have h : (pageSnippet body).length
      = ((getTextSep (removeScriptStyle body)).data.take 1500).length := rfl
  rw [h, List.length_take]
  omega

/-- Witness for C10 at a concrete backend. -/
theorem C10_empty_input_witness :
    check_index_bulk [] (fun _ => BatchResponse.exn) = [] :=
  (C10_empty_input (fun _ => BatchResponse.exn)).1

/-- Witness for the amended C7: one exception-failed batch still pauses. -/
theorem C7_sleep_accounting_witness :
    sleepCount ["a"] (fun _ => BatchResponse.exn) = 1 := by
  rw [C7_sleep_accounting ["a"] (fun _ => BatchResponse.exn),
    show chunk20 ["a"] = [["a"]] from by simp [chunk20]]
  rfl

/-- Witness for the amended C3: the substring quirk on a concrete link. -/
theorem C3_substring_match_witness :
    isFound "example.com/page" ⟨some [⟨some "https://example.com/page2"⟩]⟩ = true :=
  C3_substring_match.2

/-- Witness for the amended C6 at a concrete 200 fetch. -/
theorem C6_success_path_witness :
    get_ai_diagnosis "u" (.resp 200 []) (fun _ => " Y ") = "Y"
    ∧ noScriptStyle (removeScriptStyle [Node.elem "script" [Node.text "x"]]) = true := by
  constructor
  · rw [C6_success_path.1 "u" (fun _ => " Y ") []]
    decide
  · exact C6_success_path.2 [Node.elem "script" [Node.text "x"]]

/-- Witness for C9 at a concrete page. -/
theorem C9_snippet_length_bound_witness :
    (pageSnippet [Node.text "hello"]).length ≤ 1500 :=
  C9_snippet_length_bound [Node.text "hello"]
